import Mathlib

/-!
Verification development for the Korean-Legal-Chatbot backend
(`backend/app.py`).  The Python source is shallowly embedded: pure
functions become Lean functions, Python `float` confidences are modelled
as exact rationals, Python dicts (insertion ordered) become association
lists, and the two external effects (the HTTP fetch and the C XML
parser `xml.etree.ElementTree.fromstring`) are modelled as explicit
oracle parameters returning `Except` values (an `Except.error` models a
raised exception).  Unicode-aware Python string methods (`str.lower`,
`str.strip`, `int(...)`) are modelled on their ASCII behaviour, which
covers every keyword and literal the program compares against.
-/

/-- Python `str.lower` on one character, restricted to ASCII
(`backend/app.py` only ever compares lower-cased text against ASCII
keyword literals). -/
def pyCharLower : Char → Char
  | 'A' => 'a' | 'B' => 'b' | 'C' => 'c' | 'D' => 'd' | 'E' => 'e'
  | 'F' => 'f' | 'G' => 'g' | 'H' => 'h' | 'I' => 'i' | 'J' => 'j'
  | 'K' => 'k' | 'L' => 'l' | 'M' => 'm' | 'N' => 'n' | 'O' => 'o'
  | 'P' => 'p' | 'Q' => 'q' | 'R' => 'r' | 'S' => 's' | 'T' => 't'
  | 'U' => 'u' | 'V' => 'v' | 'W' => 'w' | 'X' => 'x' | 'Y' => 'y'
  | 'Z' => 'z'
  | c => c

/-- Python `message.lower()`. -/
def pyLower (s : String) : String := String.mk (s.data.map pyCharLower)

/-- Python whitespace as stripped by `str.strip()` (ASCII part). -/
def pyIsSpace (c : Char) : Bool :=
  c = ' ' || c = '\t' || c = '\n' || c = '\r' || c = '\x0b' || c = '\x0c'

/-- Strip `pyIsSpace` characters from both ends of a character list. -/
def pyStripL (l : List Char) : List Char :=
  ((l.dropWhile pyIsSpace).reverse.dropWhile pyIsSpace).reverse

/-- Python `str.strip()`. -/
def pyStrip (s : String) : String := String.mk (pyStripL s.data)

/-- Python substring containment `needle in hay` (on `str`). -/
def pyIn (needle hay : String) : Bool := decide (needle.data <:+: hay.data)

/-- Python `a or b` on strings (`""` is falsy). -/
def pyOrS (a b : String) : String := if a = "" then b else a

/-- Characters `urllib.parse.quote` never escapes (letters, digits, `_.-~`). -/
def alwaysSafeChar (c : Char) : Bool :=
  (65 ≤ c.toNat && c.toNat ≤ 90) || (97 ≤ c.toNat && c.toNat ≤ 122) ||
  (48 ≤ c.toNat && c.toNat ≤ 57) || c = '_' || c = '.' || c = '-' || c = '~'

/-- Upper-case hex digit for a value below 16. -/
def hexDigitChar : Nat → Char
  | 0 => '0' | 1 => '1' | 2 => '2' | 3 => '3' | 4 => '4'
  | 5 => '5' | 6 => '6' | 7 => '7' | 8 => '8' | 9 => '9'
  | 10 => 'A' | 11 => 'B' | 12 => 'C' | 13 => 'D' | 14 => 'E'
  | _ => 'F'

/-- UTF-8 encoding of one character, as byte values. -/
def utf8Bytes (c : Char) : List Nat :=
  let n := c.toNat
  if n < 0x80 then [n]
  else if n < 0x800 then [0xC0 + n / 0x40, 0x80 + n % 0x40]
  else if n < 0x10000 then
    [0xE0 + n / 0x1000, 0x80 + (n / 0x40) % 0x40, 0x80 + n % 0x40]
  else
    [0xF0 + n / 0x40000, 0x80 + (n / 0x1000) % 0x40,
     0x80 + (n / 0x40) % 0x40, 0x80 + n % 0x40]

/-- Percent-escape of one byte, `%XX` with upper-case hex. -/
def pctByte (b : Nat) : List Char :=
  ['%', hexDigitChar (b / 16), hexDigitChar (b % 16)]

/-- Python `urllib.parse.quote(s, safe)`: bytes of the UTF-8 encoding are
escaped except the always-safe set and the extra `safe` characters. -/
def pyQuote (safe : List Char) (s : String) : String :=
  String.mk (s.data.flatMap fun c =>
    if alwaysSafeChar c || safe.contains c then [c]
    else (utf8Bytes c).flatMap pctByte)

/-- Python `urllib.parse.quote_plus` (used by `urlencode`): like
`quote` with no extra safe characters, but a space becomes `+`. -/
def pyQuotePlus (s : String) : String :=
  String.mk (s.data.flatMap fun c =>
    if c = ' ' then ['+']
    else if alwaysSafeChar c then [c]
    else (utf8Bytes c).flatMap pctByte)

/-- Python `urllib.parse.urlencode` on an association list. -/
def pyUrlencode (params : List (String × String)) : String :=
  String.intercalate "&" (params.map fun p => pyQuotePlus p.1 ++ "=" ++ pyQuotePlus p.2)

/-- Default of env var `LAW_GO_KR_BASE` (`app.py` line 33). -/
def LAW_GO_KR_BASE_DEFAULT : String := "https://www.law.go.kr"

/-- Default of env var `LAW_GO_KR_BASE_URL` (`app.py` line 34). -/
def LAW_GO_KR_SEARCH_URL_DEFAULT : String := "http://www.law.go.kr/DRF/lawSearch.do"

/-- Default of env var `LAW_GO_KR_SERVICE_URL` (`app.py` line 35). -/
def LAW_GO_KR_SERVICE_URL_DEFAULT : String := "http://www.law.go.kr/DRF/lawService.do"

/-- `ENGLISH_LAW_PATH` (`app.py` line 38). -/
def ENGLISH_LAW_PATH : String := "/영문법령/"

/-- `build_english_law_url` (`app.py` lines 41-51).  `base` is the
configured `LAW_GO_KR_BASE` origin; the Python `isinstance(law_name_kr, str)`
guard is always satisfied in this typed embedding. -/
def build_english_law_url (base : String)
    (law_name_kr : String) (promulgation_no : String := "")
    (promulgation_date : String := "") : String :=
  if law_name_kr = "" then base
  else
    let path := ENGLISH_LAW_PATH ++ law_name_kr
    let path :=
      if promulgation_no ≠ "" ∧ promulgation_date ≠ "" then
        path ++ "/(" ++ promulgation_no ++ "," ++ promulgation_date ++ ")"
      else path
    base ++ pyQuote ['/', '(', ')'] path

/-- Parsed XML element, modelling the result of
`xml.etree.ElementTree.fromstring`: a tag, the element text (Python
`Element.text`, `none` when absent) and the child elements in document
order. -/
inductive Xml where
  | elem (tag : String) (text : Option String) (children : List Xml)

/-- Tag of an element. -/
def Xml.tag : Xml → String
  | .elem t _ _ => t

/-- Text of an element (`Element.text`). -/
def Xml.text : Xml → Option String
  | .elem _ t _ => t

mutual
/-- All proper descendants of an element, in document order (the node
set matched by the relative XPath `.//*` in ElementTree). -/
def Xml.descendants : Xml → List Xml
  | .elem _ _ cs => xmlDescList cs

/-- Helper: each list element followed by its descendants. -/
def xmlDescList : List Xml → List Xml
  | [] => []
  | c :: cs => c :: (Xml.descendants c ++ xmlDescList cs)
end

/-- `element.find(".//tag")`: first proper descendant with the given
tag, in document order. -/
def xmlFind (x : Xml) (tag : String) : Option Xml :=
  x.descendants.find? (fun d => d.tag = tag)

/-- `element.findall(".//tag")`: all proper descendants with the given
tag, in document order. -/
def xmlFindall (x : Xml) (tag : String) : List Xml :=
  x.descendants.filter (fun d => d.tag = tag)

/-- `NationalLawAPIService._get_xml_text` (`app.py` lines 217-222):
text of the first matching descendant, `""` when the element or its
text is missing (or the text is empty, which Python treats as falsy). -/
def get_xml_text (element : Xml) (tag : String) : String :=
  match xmlFind element tag with
  | none => ""
  | some child => (child.text.getD "")

/-- Python `int(s)` restricted to ASCII decimal literals: optional
whitespace, optional sign, at least one digit.  `none` models the
`ValueError` raised on any other input. -/
def pyIntOfString? (s : String) : Option Int :=
  let l := pyStripL s.data
  let core : Option (Int → Int) × List Char :=
    match l with
    | '-' :: rest => (some (fun n => -n), rest)
    | '+' :: rest => (some id, rest)
    | rest => (some id, rest)
  match core with
  | (some sign, digits) =>
    if digits ≠ [] ∧ digits.all (fun c => 48 ≤ c.toNat ∧ c.toNat ≤ 57) then
      some (sign (Int.ofNat (digits.foldl (fun acc c => acc * 10 + (c.toNat - 48)) 0)))
    else none
  | (none, _) => none

/-- One record of `laws` built by `_parse_search_response`
(`app.py` lines 173-180). -/
structure LawRecord where
  law_id : String
  law_name : String
  promulgation_date : String
  enforcement_date : String
  ministry : String
  law_type : String
deriving DecidableEq, Repr

/-- Result dictionary of `search_laws` / `_parse_search_response`.
Missing keys of the Python dict are modelled by the defaults the
callers read them with (`.get("total_count", 0)`, `.get("laws", [])`). -/
structure SearchResult where
  success : Bool
  total_count : Int := 0
  laws : List LawRecord := []
  error : Option String := none
deriving DecidableEq, Repr

/-- Field extraction for one `law` record (`app.py` lines 173-180),
with the `or`-chained fallback tag names. -/
def parseLawItem (item : Xml) : LawRecord :=
  { law_id := pyOrS (get_xml_text item "법령일련번호")
      (pyOrS (get_xml_text item "법령ID") (get_xml_text item "MST"))
    law_name := pyOrS (get_xml_text item "법령명한글") (get_xml_text item "법령명")
    promulgation_date := get_xml_text item "공포일자"
    enforcement_date := get_xml_text item "시행일자"
    ministry := pyOrS (get_xml_text item "소관부처명") (get_xml_text item "소관부처")
    law_type := pyOrS (get_xml_text item "법령구분명") (get_xml_text item "법령구분") }

/-- `NationalLawAPIService._parse_search_response` (`app.py` lines
161-189).  `fromstring` is the external C XML parser, an oracle
returning `Except.error` on malformed XML (ElementTree `ParseError`).
The outer `Except.error` of the result models an exception escaping the
Python function: its `except` clause only catches `ET.ParseError`, so
the `ValueError` of `int(total_elem.text)` on a non-numeric, non-empty
`totalCnt` text propagates to the caller. -/
def parse_search_response (fromstring : String → Except String Xml)
    (xml_text : String) : Except String SearchResult :=
  match fromstring xml_text with
  | .error e => .ok { success := false, error := some ("XML parsing error: " ++ e) }
  | .ok root =>
    let totalTxt : Option String := (xmlFind root "totalCnt").bind Xml.text
    match totalTxt with
    | none => .ok { success := true, total_count := 0,
                    laws := (xmlFindall root "law").map parseLawItem }
    | some t =>
      if t = "" then
        .ok { success := true, total_count := 0,
              laws := (xmlFindall root "law").map parseLawItem }
      else
        match pyIntOfString? t with
        | none => .error ("invalid literal for int() with base 10: " ++ t)
        | some n => .ok { success := true, total_count := n,
                          laws := (xmlFindall root "law").map parseLawItem }

/-- Error string of unconfigured `search_laws` (`app.py` line 113). -/
def SEARCH_NOT_CONFIGURED_MSG : String :=
  "API not configured. Please set LAW_GO_KR_OC in .env file."

/-- `NationalLawAPIService.search_laws` (`app.py` lines 94-137).
`oc` is the configured `LAW_GO_KR_OC` credential and `searchUrl` the
configured search endpoint; `net url` models
`urlopen(Request(url), timeout=15).read().decode("utf-8")` run on the
executor, with `Except.error` covering `URLError`/`HTTPError` and any
other raised exception (all converted to a failure dict by the
two `except` clauses of the function). -/
def search_laws (oc searchUrl : String)
    (net : String → Except String String)
    (fromstring : String → Except String Xml)
    (keyword : String) (searchType : String := "law")
    (page : Int := 1) (count : Int := 10) : SearchResult :=
  if oc = "" then
    { success := false, error := some SEARCH_NOT_CONFIGURED_MSG }
  else
    let params := [("OC", oc), ("target", "lsStmd"), ("type", "XML"),
                   ("query", keyword), ("display", toString (min count 100)),
                   ("page", toString page)]
    let url := searchUrl ++ "?" ++ pyUrlencode params
    match net url with
    | .error e => { success := false, error := some e }
    | .ok response =>
      match parse_search_response fromstring response with
      | .ok r => r
      | .error e => { success := false, error := some e }

/-- One article record of `_parse_detail_response` (`app.py` 205-211). -/
structure DetailArticle where
  article_no : String
  article_title : String
  article_content : String
deriving DecidableEq, Repr

/-- Result dictionary of `get_law_detail` / `_parse_detail_response`. -/
structure DetailResult where
  success : Bool
  law_id : String := ""
  law_name : String := ""
  promulgation_date : String := ""
  enforcement_date : String := ""
  articles : List DetailArticle := []
  error : Option String := none
deriving DecidableEq, Repr

/-- `NationalLawAPIService._parse_detail_response` (`app.py` 191-215). -/
def parse_detail_response (fromstring : String → Except String Xml)
    (xml_text : String) : DetailResult :=
  match fromstring xml_text with
  | .error e => { success := false, error := some ("XML parsing error: " ++ e) }
  | .ok root =>
    { success := true
      law_id := pyOrS (get_xml_text root "법령ID") (get_xml_text root "MST")
      law_name := get_xml_text root "법령명"
      promulgation_date := get_xml_text root "공포일자"
      enforcement_date := get_xml_text root "시행일자"
      articles := (xmlFindall root "조문").map fun a =>
        { article_no := get_xml_text a "조문번호"
          article_title := get_xml_text a "조문제목"
          article_content := get_xml_text a "조문내용" } }

/-- `NationalLawAPIService.get_law_detail` (`app.py` lines 139-159). -/
def get_law_detail (oc serviceUrl : String)
    (net : String → Except String String)
    (fromstring : String → Except String Xml)
    (law_id : String) : DetailResult :=
  if oc = "" then
    { success := false, error := some "API not configured" }
  else
    let params := [("OC", oc), ("target", "law"), ("type", "XML"), ("MST", law_id)]
    let url := serviceUrl ++ "?" ++ pyUrlencode params
    match net url with
    | .error e => { success := false, error := some e }
    | .ok response => parse_detail_response fromstring response

/-- One curated English-law entry of `ENGLISH_LAW_ENTRIES`
(`app.py` lines 235-277). -/
structure EnglishLawEntry where
  name_kr : String
  name_en : String
deriving DecidableEq, Repr

/-- `ENGLISH_LAW_ENTRIES` (`app.py` lines 235-277), in insertion order. -/
def ENGLISH_LAW_ENTRIES : List (String × List EnglishLawEntry) :=
  [("visa",
    [⟨"출입국관리법", "Immigration Control Act"⟩,
     ⟨"출입국관리법시행령", "Enforcement Decree of the Immigration Control Act"⟩]),
   ("company",
    [⟨"상법", "Commercial Act"⟩,
     ⟨"외국인투자촉진법", "Foreign Investment Promotion Act"⟩,
     ⟨"외국인투자촉진법시행령", "Enforcement Decree of the Foreign Investment Promotion Act"⟩]),
   ("tax",
    [⟨"법인세법", "Corporate Tax Act"⟩,
     ⟨"소득세법", "Income Tax Act"⟩,
     ⟨"부가가치세법", "Value-Added Tax Act"⟩]),
   ("contract",
    [⟨"민법", "Civil Act"⟩,
     ⟨"약관의규제에관한법률", "Act on the Regulation of Terms and Conditions"⟩,
     ⟨"독점규제및공정거래에관한법률", "Monopoly Regulation and Fair Trade Act"⟩,
     ⟨"개인정보보호법", "Personal Information Protection Act"⟩]),
   ("labor",
    [⟨"근로기준법", "Labor Standards Act"⟩,
     ⟨"최저임금법", "Minimum Wage Act"⟩]),
   ("investment",
    [⟨"외국인투자촉진법", "Foreign Investment Promotion Act"⟩,
     ⟨"외국인투자촉진법시행령", "Enforcement Decree of the Foreign Investment Promotion Act"⟩]),
   ("digital",
    [⟨"정보통신망이용촉진및정보보호등에관한법률", "Act on Promotion of Information and Communications Network Utilization and Information Protection, Etc."⟩,
     ⟨"정보통신망이용촉진및정보보호등에관한법률시행령", "Enforcement Decree of the Act on Promotion of Information and Communications Network Utilization and Information Protection, Etc."⟩]),
   ("ip",
    [⟨"상표법", "Trademark Act"⟩,
     ⟨"부정경쟁방지및영업비밀보호에관한법률", "Unfair Competition Prevention and Trade Secret Protection Act"⟩,
     ⟨"특허법", "Patent Act"⟩]),
   ("esg",
    [⟨"환경보전법", "Environment Conservation Act"⟩,
     ⟨"산업안전보건법", "Industrial Safety and Health Act"⟩])]

/-- `INTENT_TO_LAW_KEYWORDS` (`app.py` lines 280-290), insertion order. -/
def INTENT_TO_LAW_KEYWORDS : List (String × List String) :=
  [("visa", ["출입국관리법", "체류"]),
   ("company", ["상법", "외국인투자촉진법", "법인"]),
   ("tax", ["법인세법", "소득세법", "부가가치세법"]),
   ("contract", ["민법", "계약"]),
   ("labor", ["근로기준법", "최저임금법", "근로"]),
   ("investment", ["외국인투자촉진법", "시행령"]),
   ("digital", ["정보통신망법"]),
   ("ip", ["상표법", "부정경쟁방지법"]),
   ("esg", [])]

/-- One knowledge-base entry of `LEGAL_KNOWLEDGE` (`app.py` 292-375).
`keywords` and `related_laws` are carried for fidelity but never read
by `get_response`; `confidence` is optional because the code reads it
with `data.get("confidence", 0.7)`. -/
structure KnowledgeEntry where
  answer : String
  keywords : List String := []
  confidence : Option ℚ := none
  related_laws : List String := []
deriving DecidableEq, Repr

/-- `LEGAL_KNOWLEDGE["general"]` (`app.py` lines 293-348). -/
def KNOWLEDGE_GENERAL : List (String × KnowledgeEntry) :=
  [("visa",
    { answer := "Korea is promoting flexible visa policies to attract skilled foreigners, including preferential residency for those contributing to national strategic interests. Main business visas: D-8 (investment), E-7 (professional), D-9 (trade), D-10 (job seeking). Compliance with the Labor Standards Act (minimum wage, working hours, termination rules) remains essential."
      keywords := ["visa", "work permit", "residence", "talent"]
      confidence := some (9/10)
      related_laws := ["출입국관리법 (Immigration Control Act)", "근로기준법 (Labor Standards Act)"] }),
   ("company",
    { answer := "Corporate establishment follows the Commercial Act. Steps: (1) Choose company type (2) Name approval (3) Incorporation docs (4) Capital deposit (min KRW 100M for foreigners) (5) Court registration (6) Tax registration. Foreign Investment Promotion Act: investments of KRW 100 million or more (≥10% equity) require prior reporting to MOTIE. Tax reductions and other incentives under the Act continue to apply."
      keywords := ["company", "corporation", "registration", "business", "motie"]
      confidence := some (17/20)
      related_laws := ["상법 (Commercial Act)", "외국인투자촉진법 (Foreign Investment Promotion Act)"] }),
   ("tax",
    { answer := "Corporate tax 10–25%, VAT 10%, individual income tax 6–45%. Foreign businesses should leverage tax treaties. General incentives under the Foreign Investment Promotion Act (tax reductions, etc.) apply alongside new investment measures."
      keywords := ["tax", "vat", "corporate tax", "tax treaty"]
      confidence := some (4/5)
      related_laws := ["법인세법", "소득세법", "부가가치세법"] }),
   ("contract",
    { answer := "Contracts should include parties, term, payment, termination, and jurisdiction. Korean translation is important for legal proceedings. Fair trade: comply with the Monopoly Regulation and Fair Trade Act and the Subcontract Act. Dispute resolution: choose strategically between litigation and arbitration."
      keywords := ["contract", "agreement", "fair trade", "subcontract"]
      confidence := some (7/10)
      related_laws := ["민법 (Civil Act)", "약관의규제에관한법률", "공정거래법"] }),
   ("labor",
    { answer := "Labor Standards Act (minimum wage, working hours, termination rules) remains essential. The \u0027Yellow Envelope Act\u0027 (effective March 2026): subcontracted workers may bargain directly with the prime contractor; limits on claiming damages for strikes—significant for foreign manufacturers and large contractors. Visa policies for talent and foundational labor compliance continue."
      keywords := ["labor", "employment", "worker", "wage", "yellow envelope", "strike", "subcontract"]
      confidence := some (17/20)
      related_laws := ["근로기준법 (Labor Standards Act)", "최저임금법 (Minimum Wage Act)"] }),
   ("investment",
    { answer := "Foreign Investment & Government Incentives: (1) Expanded cash grants—government has temporarily increased the maximum cash support to 75% (effective 2025) for investments in designated high-tech and strategic sectors. (2) Mandatory reporting: Under the Foreign Investment Promotion Act, investments of KRW 100 million or more (with at least 10% equity) require prior reporting to MOTIE. (3) Ongoing support: Tax reductions and other benefits under the Act continue alongside these new measures."
      keywords := ["investment", "motie", "fdi", "cash grant", "incentive"]
      confidence := some (9/10)
      related_laws := ["외국인투자촉진법", "외국인투자촉진법 시행령"] }),
   ("digital",
    { answer := "Digital Platform & Emerging Technology: (1) Platform accountability: New rules (effective 2025) require large-scale online platforms (e.g., Google, Meta, Netflix) to establish and provide real-time customer support in Korea. (2) AI Basic Act: Companies commercializing AI must meet transparency obligations (e.g., disclosing AI use, watermarks on AI-generated content). (3) Content & network: Proposed amendments to the Information and Communications Network Act to combat fake news may increase liability and operational requirements for global platform operators."
      keywords := ["digital", "platform", "ai", "fake news", "information communications"]
      confidence := some (17/20)
      related_laws := ["정보통신망법", "AI 기본법"] }),
   ("ip",
    { answer := "Technology Security & IP: (1) National Core Technology (NCT): Companies with state-designated core technologies must obtain prior MOTIE approval for overseas M&As or technology exports; strict penalties for violations. (2) Trademark Act (effective July 2025): Opposition period shortened to 30 days; significantly higher ceiling for punitive damages for intentional infringement. (3) General IP: Patent, trademark, and trade secret protection under the Unfair Competition Prevention Act remain vital."
      keywords := ["ip", "trademark", "patent", "nct", "unfair competition"]
      confidence := some (17/20)
      related_laws := ["상표법", "부정경쟁방지법"] }),
   ("esg",
    { answer := "Supply Chain, ESG & Human Rights Due Diligence: Active discussions are underway for a \u0027Korean version\u0027 of the Corporate Sustainability Due Diligence Act. It would mandate human rights and environmental due diligence throughout the supply chain, aligning Korea with global ESG trends. Foreign businesses should monitor this legislation."
      keywords := ["esg", "supply chain", "due diligence", "human rights", "sustainability"]
      confidence := some (4/5)
      related_laws := [] })]

/-- `LEGAL_KNOWLEDGE` (`app.py` lines 292-375), insertion order. -/
def LEGAL_KNOWLEDGE : List (String × List (String × KnowledgeEntry)) :=
  [("general", KNOWLEDGE_GENERAL),
   ("USA",
    [("visa",
      { answer := "US citizens: D-8-4 Startup Visa available with KRW 100M+ investment. KORUS FTA provides benefits. Consider D-10 for job seeking first."
        confidence := some (17/20) }),
     ("company",
      { answer := "US companies: Consider Joint Venture with Korean partner for market entry. LLC equivalent is 유한회사. Tax treaty exists between US-Korea."
        confidence := some (4/5) })]),
   ("UAE",
    [("visa",
      { answer := "UAE citizens: Visa-free entry for 30 days. For longer stays: D-8 (investment) or E-7 (professional). Documents need UAE Foreign Ministry and Korean Embassy legalization."
        confidence := some (17/20) }),
     ("company",
      { answer := "UAE companies: Consider Free Economic Zones (Incheon, Busan) for incentives. Minimum capital KRW 100M. Local partner recommended for Middle East connections."
        confidence := some (4/5) })]),
   ("UK",
    [("visa",
      { answer := "UK citizens: D-8 or E-7 visa recommended. Brexit didn\u0027t affect Korea-UK visa arrangements. Working holiday visa available for under 30s."
        confidence := some (17/20) })])]

/-- `INTENT_KEYWORDS` (`app.py` lines 377-388), insertion order. -/
def INTENT_KEYWORDS : List (String × List String) :=
  [("visa", ["visa", "residence", "immigration", "work permit", "stay", "talent"]),
   ("company", ["company", "corporation", "registration", "business", "incorporation", "establish", "commercial act"]),
   ("tax", ["tax", "vat", "corporate tax", "income tax", "tax treaty"]),
   ("contract", ["contract", "agreement", "document"]),
   ("labor", ["labor", "employment", "worker", "wage", "working hours", "severance", "yellow envelope", "subcontract", "strike"]),
   ("investment", ["investment", "motie", "fdi", "cash grant", "incentive", "foreign investment promotion"]),
   ("digital", ["digital", "platform", "ai", "artificial intelligence", "netflix", "google", "meta", "fake news", "information communications"]),
   ("ip", ["ip", "intellectual property", "trademark", "patent", "nct", "national core technology", "unfair competition"]),
   ("esg", ["esg", "supply chain", "due diligence", "human rights", "sustainability", "environmental"]),
   ("general", ["hello", "hi", "help", "info"])]

/-- `HIGH_RISK_KEYWORDS` (`app.py` line 390). -/
def HIGH_RISK_KEYWORDS : List String :=
  ["lawsuit", "dispute", "termination", "court", "litigation", "sue"]

/-- Lookup in an insertion-ordered Python dict modelled as an
association list (`k in d` and `d[k]`). -/
def lookupA {α : Type} (l : List (String × α)) (k : String) : Option α :=
  (l.find? fun p => p.1 == k).map fun p => p.2

/-- Keyword score of one intent (`app.py` line 400):
`sum(1 for keyword in keywords if keyword in message_lower)`. -/
def scoreOf (keywords : List String) (message_lower : String) : Nat :=
  keywords.countP fun k => pyIn k message_lower

/-- One step of the best-intent scan (`app.py` lines 401-403):
overwrite only on a strictly larger score. -/
def intentStep (message_lower : String) (best : String × Nat)
    (p : String × List String) : String × Nat :=
  if scoreOf p.2 message_lower > best.2 then (p.1, scoreOf p.2 message_lower) else best

/-- `detect_intent` (`app.py` lines 393-406).  The Python float
confidence `min(best_score / 3, 1.0)` is modelled exactly in `ℚ`. -/
def detect_intent (message : String) : String × ℚ :=
  let message_lower := pyLower message
  let best := INTENT_KEYWORDS.foldl (intentStep message_lower) ("general", 0)
  (best.1, min ((best.2 : ℚ) / 3) 1)

/-- One law reference of `get_response` (`app.py` 435-440, 458-463). -/
structure LawReference where
  name : String
  name_en : String
  url : String
  id : String
deriving DecidableEq, Repr

/-- The curated (primary) law references of an intent (`app.py` lines
429-442): up to the first 5 curated entries.  The per-entry
`try`/`except` cannot fire in this embedding because every entry has a
`name_kr`/`name_en` and URL construction is total. -/
def curatedRefs (base intent : String) : List LawReference :=
  match lookupA ENGLISH_LAW_ENTRIES intent with
  | none => []
  | some entries =>
    (entries.take 5).map fun e =>
      { name := e.name_kr
        name_en := pyOrS e.name_en e.name_kr
        url := build_english_law_url base e.name_kr
        id := e.name_kr }

/-- The merge step over `api_result["laws"][:2]` (`app.py` lines
454-463): append a law when its name is truthy and equals the name of no existing
reference. -/
def mergeLaws (base : String) (refs : List LawReference) :
    List LawRecord → List LawReference
  | [] => refs
  | law :: rest =>
    if law.law_name ≠ "" ∧ ¬ (refs.any fun r => r.name == law.law_name) then
      mergeLaws base (refs ++ [{ name := law.law_name
                                 name_en := law.law_name
                                 url := build_english_law_url base law.law_name
                                 id := law.law_id }]) rest
    else mergeLaws base refs rest

/-- The keyword loop of the enrichment block (`app.py` lines 446-466).
`oracle kw` models `await law_api_service.search_laws(keyword=kw,
search_type="law", count=3)`; an `Except.error` models an exception
raised inside the `try` block, which aborts the whole loop and is
swallowed by `except Exception: pass` (no reference has been appended
at that point, because any append is followed by `break`). -/
def enrichLoop (base : String)
    (oracle : String → Except String SearchResult)
    (refs : List LawReference) : List String → List LawReference
  | [] => refs
  | kw :: rest =>
    match oracle kw with
    | .error _ => refs
    | .ok r =>
      if r.success ∧ r.laws ≠ [] then mergeLaws base refs (r.laws.take 2)
      else enrichLoop base oracle refs rest

/-- The law-reference resolution of `get_response` (`app.py` lines
426-466): curated references first, then best-effort enrichment only
when the intent has an entry in `INTENT_TO_LAW_KEYWORDS` and the
`LAW_GO_KR_OC` credential is non-empty (Python truthiness). -/
def resolveLawReferences (base oc : String)
    (oracle : String → Except String SearchResult) (intent : String) :
    List LawReference :=
  let refs := curatedRefs base intent
  match lookupA INTENT_TO_LAW_KEYWORDS intent with
  | some kws => if oc = "" then refs else enrichLoop base oracle refs kws
  | none => refs

/-- Fallback reply text of the knowledge lookup (`app.py` line 479). -/
def FALLBACK_TEXT : String :=
  "I understand you\u0027re asking about general. For specific legal advice, I recommend consulting with a qualified lawyer or e-mailing virtual.esq@gmail.com."

/-- Note appended when law references exist (`app.py` line 486). -/
def ENGLISH_LAWS_NOTE : String :=
  "\n\n📚 English Laws (영문법령): See links below for official translations (National Law Information)."

/-- Low-confidence warning (`app.py` line 513). -/
def LOW_CONFIDENCE_NOTE : String :=
  "\n\n⚠️ Note: This is general information. For accurate advice, please consult a legal expert."

/-- The knowledge-base selection of `get_response` (`app.py` lines
469-482): prefer `(country, intent)`, else `("general", intent)`, else
the fallback text with confidence `0.3`.  Returns `(response_text,
confidence)`.  The surrounding `try`/`except` cannot fire in this
embedding (every lookup is total). -/
def knowledgeSelect (country intent : String) : String × ℚ :=
  let generalTier :=
    match lookupA KNOWLEDGE_GENERAL intent with
    | some data => (data.answer, data.confidence.getD (7/10))
    | none => (FALLBACK_TEXT, 3/10)
  match lookupA LEGAL_KNOWLEDGE country with
  | some cmap =>
    match lookupA cmap intent with
    | some data => (data.answer, data.confidence.getD (7/10))
    | none => generalTier
  | none => generalTier

/-- `suggested_actions` selection (`app.py` lines 494-510). -/
def suggestedActionsFor (intent : String) : List String :=
  if intent = "visa" then
    ["Check visa requirements", "Download application form", "Find immigration lawyer"]
  else if intent = "company" then
    ["Company registration checklist", "Document templates", "Local agent contact"]
  else if intent = "tax" then
    ["Tax treaty information", "Tax calendar", "Find tax accountant"]
  else if intent = "investment" then
    ["MOTIE reporting guide", "Cash grant eligibility", "Find investment lawyer"]
  else if intent = "digital" then
    ["Platform compliance checklist", "AI disclosure requirements", "Find tech lawyer"]
  else if intent = "labor" then
    ["Yellow Envelope Act summary", "Labor Standards checklist", "Find labor lawyer"]
  else if intent = "ip" then
    ["NCT approval process", "Trademark opposition guide", "Find IP lawyer"]
  else if intent = "esg" then
    ["ESG due diligence framework", "Supply chain checklist", "Find ESG advisor"]
  else []

/-- The mapping returned by `get_response` (`app.py` lines 516-523).
The fixed `disclaimer` field is added later by the response model, not
by `get_response`. -/
structure ChatReply where
  reply : String
  confidence : ℚ
  needs_expert : Bool
  suggested_expert_type : Option String
  suggested_actions : List String
  law_references : List LawReference
deriving DecidableEq, Repr

/-- `_safe_reply` (`app.py` lines 409-417).  In this total embedding
none of the `except` branches of `get_response` that return it can
fire; it is kept for fidelity. -/
def safeReply : ChatReply :=
  { reply := "I\u0027m sorry, I couldn\u0027t process that. Please try again or rephrase your question."
    confidence := 3/10
    needs_expert := false
    suggested_expert_type := none
    suggested_actions := []
    law_references := [] }

/-- `get_response` (`app.py` lines 420-525).  `base`/`oc` are the
configured `LAW_GO_KR_BASE`/`LAW_GO_KR_OC`; `oracle` models the awaited
`law_api_service.search_laws` calls of the enrichment block (see
`enrichLoop`).  `message or ""` is the identity on the embedded
`String` type. -/
def get_response (base oc : String)
    (oracle : String → Except String SearchResult)
    (intent country message : String) : ChatReply :=
  let message := pyStrip message
  let intent := if intent = "" then "general" else intent
  let country := if country = "" then "general" else country
  let law_references := resolveLawReferences base oc oracle intent
  let sel := knowledgeSelect country intent
  let response_text := sel.1
  let confidence := sel.2
  let response_text :=
    if law_references ≠ [] then response_text ++ ENGLISH_LAWS_NOTE else response_text
  let msg_lower := pyLower message
  let needs_expert := HIGH_RISK_KEYWORDS.any fun k => pyIn k msg_lower
  let expert_type :=
    if ["lawsuit", "court", "sue"].any (fun k => pyIn k msg_lower) then "litigation"
    else "general"
  let suggested_actions := suggestedActionsFor intent
  let response_text :=
    if confidence < 1/2 then response_text ++ LOW_CONFIDENCE_NOTE else response_text
  { reply := response_text
    confidence := confidence
    needs_expert := needs_expert
    suggested_expert_type := if needs_expert then some expert_type else none
    suggested_actions := suggested_actions
    law_references := law_references }

/-- The concrete oracle `get_response` runs with in production: the
awaited `law_api_service.search_laws(kw, "law", count=3)` call, which
never raises (`search_laws` converts every exception to a failure
dict). -/
def productionSearchOracle (oc searchUrl : String)
    (net : String → Except String String)
    (fromstring : String → Except String Xml) :
    String → Except String SearchResult :=
  fun kw => Except.ok (search_laws oc searchUrl net fromstring kw "law" 1 3)

/-! ### Lemmas on the intent-scoring fold -/

/-- Maximum keyword score over a keyword table. -/
def maxScore (message_lower : String) (l : List (String × List String)) : Nat :=
  l.foldr (fun p m => max (scoreOf p.2 message_lower) m) 0

lemma score_le_maxScore {ml : String} {l : List (String × List String)}
    {p : String × List String} (h : p ∈ l) : scoreOf p.2 ml ≤ maxScore ml l := by
  induction l with
  | nil => cases h
  | cons q t ih =>
    rcases List.mem_cons.mp h with rfl | h
    · exact Nat.le_max_left _ _
    · exact le_trans (ih h) (Nat.le_max_right _ _)

lemma foldl_intentStep_stay {ml : String} {l : List (String × List String)}
    {b : String × Nat} (h : ∀ p ∈ l, scoreOf p.2 ml ≤ b.2) :
    l.foldl (intentStep ml) b = b := by
  induction l generalizing b with
  | nil => rfl
  | cons p t ih =>
    have hp := h p (List.mem_cons_self _ _)
    simp only [List.foldl_cons, intentStep]
    rw [if_neg (by omega)]
    exact ih fun q hq => h q (List.mem_cons_of_mem _ hq)

lemma foldl_intentStep_max {ml : String} {l : List (String × List String)}
    {b : String × Nat} (h : b.2 < maxScore ml l) :
    ∃ p, l.find? (fun q => scoreOf q.2 ml == maxScore ml l) = some p ∧
      l.foldl (intentStep ml) b = (p.1, maxScore ml l) := by
  induction l generalizing b with
  | nil => simp [maxScore] at h
  | cons p t ih =>
    have hm : maxScore ml (p :: t) = max (scoreOf p.2 ml) (maxScore ml t) := rfl
    by_cases hc : maxScore ml t ≤ scoreOf p.2 ml
    · have hM : maxScore ml (p :: t) = scoreOf p.2 ml := by rw [hm]; omega
      refine ⟨p, ?_, ?_⟩
      · exact List.find?_cons_of_pos _ (by simp [hM])
      · simp only [List.foldl_cons, intentStep]
        rw [if_pos (by rw [hM] at h; omega)]
        rw [foldl_intentStep_stay (fun q hq => by
          exact le_trans (score_le_maxScore hq) hc)]
        rw [hM]
    · push_neg at hc
      have hM : maxScore ml (p :: t) = maxScore ml t := by rw [hm]; omega
      have hfind : (p :: t).find? (fun q => scoreOf q.2 ml == maxScore ml (p :: t)) =
          t.find? (fun q => scoreOf q.2 ml == maxScore ml (p :: t)) := by
        refine List.find?_cons_of_neg _ ?_
        simp only [beq_iff_eq]
        rw [hM]; omega
      simp only [List.foldl_cons, intentStep]
      by_cases hs : scoreOf p.2 ml > b.2
      · rw [if_pos hs]
        obtain ⟨q, hq1, hq2⟩ := @ih (p.1, scoreOf p.2 ml) (by simpa [hM] using hc)
        exact ⟨q, by rw [hfind, hM]; exact hq1, by rw [hM]; exact hq2⟩
      · rw [if_neg hs]
        obtain ⟨q, hq1, hq2⟩ := @ih b (by rw [hM] at h; exact h)
        exact ⟨q, by rw [hfind, hM]; exact hq1, by rw [hM]; exact hq2⟩

lemma detect_intent_eq (message : String) :
    detect_intent message =
      ((INTENT_KEYWORDS.foldl (intentStep (pyLower message)) ("general", 0)).1,
       min (((INTENT_KEYWORDS.foldl (intentStep (pyLower message)) ("general", 0)).2 : ℚ) / 3) 1) :=
  rfl

lemma pyIn_eq_true {needle hay : String} :
    pyIn needle hay = true ↔ needle.data <:+: hay.data := by
  simp [pyIn]

lemma scoreOf_eq_zero {kws : List String} {ml : String}
    (h : ∀ k ∈ kws, ¬ (k.data <:+: ml.data)) : scoreOf kws ml = 0 := by
  rw [scoreOf, List.countP_eq_zero]
  intro k hk
  simpa [pyIn_eq_true] using h k hk

lemma maxScore_eq_zero {ml : String} {l : List (String × List String)}
    (h : ∀ p ∈ l, scoreOf p.2 ml = 0) : maxScore ml l = 0 := by
  induction l with
  | nil => rfl
  | cons p t ih =>
    have hp := h p (List.mem_cons_self _ _)
    have ht := ih fun q hq => h q (List.mem_cons_of_mem _ hq)
    show max (scoreOf p.2 ml) (maxScore ml t) = 0
    omega

/-- C1: for every message, `detect_intent` lower-cases the message,
scores every intent of the keyword table by counting its keywords that
occur as substrings, keeps the first-registered intent whose score
strictly exceeds all previously seen scores (default `"general"` at
score 0, overwritten only on strict `>`, hence the first intent
attaining the positive maximum wins), and returns confidence
`min(score / 3, 1.0)`; an empty message, or one hitting no keyword of
any intent, yields `("general", 0.0)`. -/
theorem C1_detect_intent_characterization (message : String) :
    ((detect_intent message).2 =
       min ((maxScore (pyLower message) INTENT_KEYWORDS : ℚ) / 3) 1) ∧
    (maxScore (pyLower message) INTENT_KEYWORDS = 0 →
       detect_intent message = ("general", 0)) ∧
    (0 < maxScore (pyLower message) INTENT_KEYWORDS →
       ∃ p, INTENT_KEYWORDS.find?
           (fun q => scoreOf q.2 (pyLower message) ==
             maxScore (pyLower message) INTENT_KEYWORDS) = some p ∧
         (detect_intent message).1 = p.1) ∧
    detect_intent "" = ("general", 0) ∧
    ((∀ p ∈ INTENT_KEYWORDS, ∀ k ∈ p.2, ¬ (k.data <:+: (pyLower message).data)) →
       detect_intent message = ("general", 0)) := by
  have hempty : detect_intent "" = ("general", 0) := by
    have h0 : maxScore (pyLower "") INTENT_KEYWORDS = 0 := by decide
    have hstay : INTENT_KEYWORDS.foldl (intentStep (pyLower "")) ("general", 0) =
        ("general", 0) :=
      foldl_intentStep_stay fun p hp => by
        have : scoreOf p.2 (pyLower "") ≤ maxScore (pyLower "") INTENT_KEYWORDS :=
          score_le_maxScore hp
        omega
    rw [detect_intent_eq, hstay]; norm_num
  rcases Nat.eq_zero_or_pos (maxScore (pyLower message) INTENT_KEYWORDS) with h0 | hpos
  · have hstay : INTENT_KEYWORDS.foldl (intentStep (pyLower message)) ("general", 0) =
        ("general", 0) :=
      foldl_intentStep_stay fun p hp => by
        have : scoreOf p.2 (pyLower message) ≤
            maxScore (pyLower message) INTENT_KEYWORDS :=
          score_le_maxScore hp
        omega
    refine ⟨?_, ?_, ?_, hempty, ?_⟩
    · rw [detect_intent_eq, hstay, h0]
    · intro _; rw [detect_intent_eq, hstay]; norm_num
    · intro hlt; omega
    · intro _; rw [detect_intent_eq, hstay]; norm_num
  · obtain ⟨p, hfind, hfold⟩ :=
      @foldl_intentStep_max (pyLower message) INTENT_KEYWORDS ("general", 0)
        (by exact hpos)
    refine ⟨?_, ?_, ?_, hempty, ?_⟩
    · rw [detect_intent_eq, hfold]
    · intro h0; omega
    · intro _; exact ⟨p, hfind, by rw [detect_intent_eq, hfold]⟩
    · intro hnone
      have : maxScore (pyLower message) INTENT_KEYWORDS = 0 :=
        maxScore_eq_zero fun q hq => scoreOf_eq_zero fun k hk => hnone q hq k hk
      omega

/-- Witness for C1 at concrete inputs: a keyword-free message maps to
`("general", 0)` (via both the max-score and the no-hit conjuncts), and
for a message with a positive maximum the returned intent is the first
score-maximal entry of the table. -/
theorem C1_witness :
    detect_intent "zzz" = ("general", 0) ∧
    (∃ p, INTENT_KEYWORDS.find?
        (fun q => scoreOf q.2 (pyLower "tax") ==
          maxScore (pyLower "tax") INTENT_KEYWORDS) = some p ∧
      (detect_intent "tax").1 = p.1) ∧
    detect_intent "qqq" = ("general", 0) :=
  ⟨(C1_detect_intent_characterization "zzz").2.1 (by decide),
   (C1_detect_intent_characterization "tax").2.2.1 (by decide),
   (C1_detect_intent_characterization "qqq").2.2.2.2 (by decide)⟩

lemma three_distinct_countP {l : List String} {p : String → Bool} {k1 k2 k3 : String}
    (h1 : k1 ∈ l) (h2 : k2 ∈ l) (h3 : k3 ∈ l)
    (d12 : k1 ≠ k2) (d13 : k1 ≠ k3) (d23 : k2 ≠ k3)
    (p1 : p k1 = true) (p2 : p k2 = true) (p3 : p k3 = true) : 3 ≤ l.countP p := by
  classical
  have hsub : ({k1, k2, k3} : Finset String) ⊆ (l.filter p).toFinset := by
    intro x hx
    simp only [Finset.mem_insert, Finset.mem_singleton] at hx
    rcases hx with rfl | rfl | rfl <;>
      simp [List.mem_toFinset, List.mem_filter, h1, h2, h3, p1, p2, p3]
  have hcard : ({k1, k2, k3} : Finset String).card = 3 := by
    rw [Finset.card_insert_of_not_mem (by simp [d12, d13]),
        Finset.card_insert_of_not_mem (by simp [d23]), Finset.card_singleton]
  calc 3 = ({k1, k2, k3} : Finset String).card := hcard.symm
    _ ≤ (l.filter p).toFinset.card := Finset.card_le_card hsub
    _ ≤ (l.filter p).length := List.toFinset_card_le _
    _ = l.countP p := (List.countP_eq_length_filter _ _).symm

/-- C9: a message containing at least 3 distinct keywords of exactly
one intent (keywords of no other intent occur) is classified as that
intent with confidence exactly 1.0: its score is at least 3 while every
other intent scores 0, so `min(score / 3, 1.0) = 1.0`. -/
theorem C9_three_keyword_intent (message intent : String) (kws : List String)
    (hmem : (intent, kws) ∈ INTENT_KEYWORDS)
    (hthree : ∃ k1 k2 k3, k1 ∈ kws ∧ k2 ∈ kws ∧ k3 ∈ kws ∧
       k1 ≠ k2 ∧ k1 ≠ k3 ∧ k2 ≠ k3 ∧
       k1.data <:+: (pyLower message).data ∧ k2.data <:+: (pyLower message).data ∧
       k3.data <:+: (pyLower message).data)
    (hothers : ∀ p ∈ INTENT_KEYWORDS, p.1 ≠ intent →
       ∀ k ∈ p.2, ¬ (k.data <:+: (pyLower message).data)) :
    detect_intent message = (intent, 1) := by
  obtain ⟨k1, k2, k3, m1, m2, m3, d12, d13, d23, s1, s2, s3⟩ := hthree
  have hscore : 3 ≤ scoreOf kws (pyLower message) :=
    three_distinct_countP m1 m2 m3 d12 d13 d23
      (pyIn_eq_true.mpr s1) (pyIn_eq_true.mpr s2) (pyIn_eq_true.mpr s3)
  obtain ⟨l1, l2, hsplit⟩ := List.append_of_mem hmem
  have hkeys : (INTENT_KEYWORDS.map Prod.fst).Nodup := by decide
  have hne : ∀ p ∈ l1 ++ l2, p.1 ≠ intent := by
    rw [hsplit] at hkeys
    rw [List.map_append, List.map_cons] at hkeys
    have hmid := List.nodup_middle.mp hkeys
    have hnotmem := (List.nodup_cons.mp hmid).1
    intro p hp hcontra
    exact hnotmem (by
      rw [← List.map_append]
      exact List.mem_map.mpr ⟨p, hp, hcontra⟩)
  have hinIK : ∀ p ∈ l1 ++ l2, p ∈ INTENT_KEYWORDS := by
    intro p hp
    rw [hsplit]
    rcases List.mem_append.mp hp with h | h
    · exact List.mem_append_left _ h
    · exact List.mem_append_right _ (List.mem_cons_of_mem _ h)
  have hzero : ∀ p ∈ l1 ++ l2, scoreOf p.2 (pyLower message) = 0 := fun p hp =>
    scoreOf_eq_zero (hothers p (hinIK p hp) (hne p hp))
  rw [detect_intent_eq, hsplit, List.foldl_append]
  rw [@foldl_intentStep_stay (pyLower message) l1 ("general", 0) fun p hp =>
    le_of_eq (hzero p (List.mem_append_left _ hp))]
  rw [List.foldl_cons]
  have hstep : intentStep (pyLower message) ("general", 0) (intent, kws) =
      (intent, scoreOf kws (pyLower message)) := by
    simp only [intentStep]
    rw [if_pos (by simpa using Nat.lt_of_lt_of_le (by norm_num) hscore)]
  rw [hstep]
  rw [@foldl_intentStep_stay (pyLower message) l2
    (intent, scoreOf kws (pyLower message)) fun p hp => by
    rw [hzero p (List.mem_append_right _ hp)]; exact Nat.zero_le _]
  have hconf : min ((scoreOf kws (pyLower message) : ℚ) / 3) 1 = 1 := by
    have h3 : (3 : ℚ) ≤ (scoreOf kws (pyLower message) : ℚ) := by exact_mod_cast hscore
    rw [min_eq_right]
    rw [le_div_iff₀ (by norm_num : (0 : ℚ) < 3)]
    linarith
  rw [hconf]

/-- Witness for C9: the message `"labor employment worker"` contains
the three distinct `labor` keywords `labor`, `employment`, `worker` and
no keyword of any other intent, and is classified `("labor", 1)`. -/
theorem C9_witness :
    detect_intent "labor employment worker" = ("labor", 1) :=
  C9_three_keyword_intent "labor employment worker" "labor"
    ["labor", "employment", "worker", "wage", "working hours", "severance",
     "yellow envelope", "subcontract", "strike"]
    (by decide)
    ⟨"labor", "employment", "worker", by decide, by decide, by decide, by decide,
     by decide, by decide, by decide, by decide, by decide⟩
    (by decide)

/-! ### Stripping commutes with substring search for whitespace-free needles -/

lemma pyIsSpace_pyCharLower (c : Char) :
    pyIsSpace (pyCharLower c) = pyIsSpace c := by
  unfold pyCharLower
  split <;> rfl

lemma dropWhile_map_pyCharLower (l : List Char) :
    (l.map pyCharLower).dropWhile pyIsSpace = (l.dropWhile pyIsSpace).map pyCharLower := by
  induction l with
  | nil => rfl
  | cons a t ih =>
    by_cases h : pyIsSpace a
    · rw [List.map_cons, List.dropWhile_cons_of_pos (by rw [pyIsSpace_pyCharLower]; exact h),
          List.dropWhile_cons_of_pos h, ih]
    · rw [List.map_cons, List.dropWhile_cons_of_neg (by rw [pyIsSpace_pyCharLower]; exact h),
          List.dropWhile_cons_of_neg h, List.map_cons]

lemma pyStripL_map_pyCharLower (l : List Char) :
    pyStripL (l.map pyCharLower) = (pyStripL l).map pyCharLower := by
  unfold pyStripL
  rw [dropWhile_map_pyCharLower, ← List.map_reverse, dropWhile_map_pyCharLower,
      ← List.map_reverse]

lemma infixRevIff (a b : List Char) : a <:+: b.reverse ↔ a.reverse <:+: b := by
  constructor
  · rintro ⟨s, t, h⟩
    refine ⟨t.reverse, s.reverse, ?_⟩
    have h2 := congrArg List.reverse h
    rw [List.reverse_reverse] at h2
    simpa [List.reverse_append, List.append_assoc] using h2
  · rintro ⟨s, t, h⟩
    refine ⟨t.reverse, s.reverse, ?_⟩
    simpa [List.reverse_append, List.append_assoc] using congrArg List.reverse h

lemma infix_dropWhile_pyIsSpace_iff (needle l : List Char) (hne : needle ≠ [])
    (hws : ∀ c ∈ needle, pyIsSpace c = false) :
    needle <:+: l.dropWhile pyIsSpace ↔ needle <:+: l := by
  constructor
  · intro h
    exact h.trans (List.dropWhile_suffix pyIsSpace).isInfix
  · intro h
    induction l with
    | nil => simpa using h
    | cons a t ih =>
      by_cases ha : pyIsSpace a
      · rw [List.dropWhile_cons_of_pos ha]
        rcases List.infix_cons_iff.mp h with hpre | hinf
        · obtain ⟨n0, ntl, rfl⟩ := List.exists_cons_of_ne_nil hne
          have := (List.cons_prefix_cons.mp hpre).1
          have hn0 := hws n0 (List.mem_cons_self _ _)
          rw [this] at hn0
          rw [ha] at hn0
          cases hn0
        · exact ih hinf
      · rw [List.dropWhile_cons_of_neg ha]
        exact h

lemma infix_pyStripL_iff (needle l : List Char) (hne : needle ≠ [])
    (hws : ∀ c ∈ needle, pyIsSpace c = false) :
    needle <:+: pyStripL l ↔ needle <:+: l := by
  have hne2 : needle.reverse ≠ [] := by simpa using hne
  have hws2 : ∀ c ∈ needle.reverse, pyIsSpace c = false := fun c hc =>
    hws c (List.mem_reverse.mp hc)
  unfold pyStripL
  rw [infixRevIff,
      infix_dropWhile_pyIsSpace_iff needle.reverse _ hne2 hws2,
      infixRevIff, List.reverse_reverse]
  exact infix_dropWhile_pyIsSpace_iff needle l hne hws

lemma pyIn_strip_lower_iff (k m : String) (hne : k.data ≠ [])
    (hws : ∀ c ∈ k.data, pyIsSpace c = false) :
    pyIn k (pyLower (pyStrip m)) = pyIn k (pyLower m) := by
  have hdata : (pyLower (pyStrip m)).data = pyStripL ((pyLower m).data) := by
    show (pyStripL m.data).map pyCharLower = pyStripL (m.data.map pyCharLower)
    exact (pyStripL_map_pyCharLower m.data).symm
  unfold pyIn
  rw [hdata]
  exact decide_eq_decide.mpr (infix_pyStripL_iff k.data _ hne hws)

lemma anyCongr {l : List String} {p q : String → Bool}
    (h : ∀ a ∈ l, p a = q a) : l.any p = l.any q := by
  induction l with
  | nil => rfl
  | cons a t ih =>
    simp only [List.any_cons]
    rw [h a (List.mem_cons_self _ _), ih fun b hb => h b (List.mem_cons_of_mem _ hb)]

/-! ### Projections of `get_response` -/

lemma get_response_needs_expert_eq (base oc : String)
    (oracle : String → Except String SearchResult) (intent country message : String) :
    (get_response base oc oracle intent country message).needs_expert =
      HIGH_RISK_KEYWORDS.any (fun k => pyIn k (pyLower (pyStrip message))) := rfl

lemma get_response_expert_type_eq (base oc : String)
    (oracle : String → Except String SearchResult) (intent country message : String) :
    (get_response base oc oracle intent country message).suggested_expert_type =
      (if HIGH_RISK_KEYWORDS.any (fun k => pyIn k (pyLower (pyStrip message))) then
        some (if (["lawsuit", "court", "sue"] : List String).any
            (fun k => pyIn k (pyLower (pyStrip message))) then "litigation"
          else "general")
      else none) := rfl

lemma get_response_confidence_eq (base oc : String)
    (oracle : String → Except String SearchResult) (intent country message : String) :
    (get_response base oc oracle intent country message).confidence =
      (knowledgeSelect (if country = "" then "general" else country)
        (if intent = "" then "general" else intent)).2 := rfl

lemma get_response_law_references_eq (base oc : String)
    (oracle : String → Except String SearchResult) (intent country message : String) :
    (get_response base oc oracle intent country message).law_references =
      resolveLawReferences base oc oracle (if intent = "" then "general" else intent) := rfl

lemma high_risk_shape :
    ∀ k ∈ HIGH_RISK_KEYWORDS, k.data ≠ [] ∧ ∀ c ∈ k.data, pyIsSpace c = false := by
  decide

lemma litigation_shape :
    ∀ k ∈ (["lawsuit", "court", "sue"] : List String),
      k.data ≠ [] ∧ ∀ c ∈ k.data, pyIsSpace c = false := by
  decide

/-- C6: `needs_expert` is true exactly when the lower-cased message
contains one of the six high-risk keywords as a substring; when it is
true, `suggested_expert_type` is `"litigation"` if the message contains
`lawsuit`, `court` or `sue` and `"general"` otherwise; and the returned
`suggested_expert_type` is non-null exactly when `needs_expert` is
true. -/
theorem C6_high_risk_escalation (base oc : String)
    (oracle : String → Except String SearchResult) (intent country message : String) :
    ((get_response base oc oracle intent country message).needs_expert = true ↔
      ∃ k ∈ HIGH_RISK_KEYWORDS, k.data <:+: (pyLower message).data) ∧
    ((get_response base oc oracle intent country message).needs_expert = true →
      (get_response base oc oracle intent country message).suggested_expert_type =
        some (if ∃ k ∈ (["lawsuit", "court", "sue"] : List String),
            k.data <:+: (pyLower message).data then "litigation" else "general")) ∧
    ((get_response base oc oracle intent country message).suggested_expert_type ≠ none ↔
      (get_response base oc oracle intent country message).needs_expert = true) := by
  have hany : HIGH_RISK_KEYWORDS.any (fun k => pyIn k (pyLower (pyStrip message))) =
      HIGH_RISK_KEYWORDS.any (fun k => pyIn k (pyLower message)) :=
    anyCongr fun k hk =>
      pyIn_strip_lower_iff k message (high_risk_shape k hk).1 (high_risk_shape k hk).2
  have hany2 : (["lawsuit", "court", "sue"] : List String).any
        (fun k => pyIn k (pyLower (pyStrip message))) =
      (["lawsuit", "court", "sue"] : List String).any
        (fun k => pyIn k (pyLower message)) :=
    anyCongr fun k hk =>
      pyIn_strip_lower_iff k message (litigation_shape k hk).1 (litigation_shape k hk).2
  refine ⟨?_, ?_, ?_⟩
  · rw [get_response_needs_expert_eq, hany, List.any_eq_true]
    simp [pyIn_eq_true]
  · intro h
    rw [get_response_needs_expert_eq] at h
    rw [get_response_expert_type_eq, if_pos h, hany2]
    congr 1
    refine if_congr ?_ rfl rfl
    rw [List.any_eq_true]
    simp [pyIn_eq_true]
  · rw [get_response_expert_type_eq, get_response_needs_expert_eq]
    cases h : HIGH_RISK_KEYWORDS.any (fun k => pyIn k (pyLower (pyStrip message))) <;>
      simp [h]

/-- Witness for C6 at a concrete input: the message
`"I will go to court"` triggers escalation and the litigation expert
type. -/
theorem C6_witness :
    (get_response LAW_GO_KR_BASE_DEFAULT "" (fun _ => Except.error "down")
        "contract" "general" "I will go to court").suggested_expert_type =
      some (if ∃ k ∈ (["lawsuit", "court", "sue"] : List String),
          k.data <:+: (pyLower "I will go to court").data then "litigation"
        else "general") :=
  (C6_high_risk_escalation LAW_GO_KR_BASE_DEFAULT "" (fun _ => Except.error "down")
    "contract" "general" "I will go to court").2.1 (by decide)

/-- C10: because high-risk detection is substring containment, any
message whose lower-cased text contains `"sue"` (for example inside
`"issue"` or `"pursue"`) yields `needs_expert = true` and
`suggested_expert_type = "litigation"`. -/
theorem C10_sue_substring (base oc : String)
    (oracle : String → Except String SearchResult) (intent country message : String)
    (h : ("sue" : String).data <:+: (pyLower message).data) :
    (get_response base oc oracle intent country message).needs_expert = true ∧
    (get_response base oc oracle intent country message).suggested_expert_type =
      some "litigation" := by
  have hsue : pyIn "sue" (pyLower (pyStrip message)) = true := by
    rw [pyIn_strip_lower_iff "sue" message (by decide) (by decide)]
    exact pyIn_eq_true.mpr h
  have hneeds : HIGH_RISK_KEYWORDS.any (fun k => pyIn k (pyLower (pyStrip message))) = true := by
    rw [List.any_eq_true]
    exact ⟨"sue", by decide, hsue⟩
  have hlit : (["lawsuit", "court", "sue"] : List String).any
      (fun k => pyIn k (pyLower (pyStrip message))) = true := by
    rw [List.any_eq_true]
    exact ⟨"sue", by decide, hsue⟩
  refine ⟨?_, ?_⟩
  · rw [get_response_needs_expert_eq, hneeds]
  · rw [get_response_expert_type_eq, if_pos hneeds, hlit]
    rfl

/-- Witness for C10: the message `"Korea has an issue"` contains no
standalone high-risk word, yet `"sue"` occurs inside `"issue"`, so the
response escalates with the litigation expert type. -/
theorem C10_witness :
    (get_response LAW_GO_KR_BASE_DEFAULT "" (fun _ => Except.error "down")
        "visa" "general" "Korea has an issue").needs_expert = true ∧
    (get_response LAW_GO_KR_BASE_DEFAULT "" (fun _ => Except.error "down")
        "visa" "general" "Korea has an issue").suggested_expert_type =
      some "litigation" :=
  C10_sue_substring LAW_GO_KR_BASE_DEFAULT "" (fun _ => Except.error "down")
    "visa" "general" "Korea has an issue" (by decide)

/-- C7: `build_english_law_url` returns the configured origin plus the
percent-encoding (preserving `/`, `(`, `)`) of the fixed English-law
segment and the Korean law name, appending `/(<no>,<date>)` before
encoding exactly when both promulgation fields are non-empty; an empty
law name yields just the origin; and concretely
`build_english_law_url("상법", "", "")` is the origin plus
`/영문법령/상법` percent-encoded with no promulgation suffix.  (The
Python `not isinstance(law_name_kr, str)` escape has no counterpart in
this typed embedding.) -/
theorem C7_url_construction (base name no date : String) :
    (build_english_law_url base "" no date = base) ∧
    (build_english_law_url base name no date =
      if name = "" then base
      else base ++ pyQuote ['/', '(', ')']
        (ENGLISH_LAW_PATH ++ name ++
          (if no ≠ "" ∧ date ≠ "" then "/(" ++ no ++ "," ++ date ++ ")" else ""))) ∧
    build_english_law_url LAW_GO_KR_BASE_DEFAULT "상법" "" "" =
      "https://www.law.go.kr/%EC%98%81%EB%AC%B8%EB%B2%95%EB%A0%B9/%EC%83%81%EB%B2%95" ∧
    build_english_law_url LAW_GO_KR_BASE_DEFAULT "상법" "12345" "20240101" =
      "https://www.law.go.kr/%EC%98%81%EB%AC%B8%EB%B2%95%EB%A0%B9/%EC%83%81%EB%B2%95/(12345%2C20240101)" := by
  refine ⟨by simp [build_english_law_url], ?_, by decide, by decide⟩
  by_cases hn : name = ""
  · simp [build_english_law_url, hn]
  · by_cases hc : no ≠ "" ∧ date ≠ ""
    · simp [build_english_law_url, hn, hc, String.append_assoc]
    · simp [build_english_law_url, hn, hc, String.append_assoc]

/-- C5 counterexample: with an empty credential the error strings are
`"API not configured. Please set LAW_GO_KR_OC in .env file."`
(`search_laws`) and `"API not configured"` (`get_law_detail`), not the
literal `"not configured"` stated by the claim. -/
theorem C5_counterexample :
    (search_laws "" LAW_GO_KR_SEARCH_URL_DEFAULT (fun _ => Except.error "no network")
        (fun _ => Except.error "unused") "근로기준법" "law" 1 10).error ≠
      some "not configured" ∧
    (get_law_detail "" LAW_GO_KR_SERVICE_URL_DEFAULT (fun _ => Except.error "no network")
        (fun _ => Except.error "unused") "267581").error ≠ some "not configured" :=
  ⟨by decide, by decide⟩

/-- C5 (amended): with an empty API credential, `search_laws` returns
the failure dict with error
`"API not configured. Please set LAW_GO_KR_OC in .env file."` and
`get_law_detail` the failure dict with error `"API not configured"`,
both immediately and independently of the network and XML oracles (no
network request is performed), and the resolver then yields the
curated-only references. -/
theorem C5_not_configured (searchUrl serviceUrl : String)
    (net net2 : String → Except String String)
    (fromstring fromstring2 : String → Except String Xml)
    (keyword searchType lawId base : String) (page count : Int)
    (oracle : String → Except String SearchResult) (intent : String) :
    (search_laws "" searchUrl net fromstring keyword searchType page count =
      { success := false, error := some SEARCH_NOT_CONFIGURED_MSG }) ∧
    (get_law_detail "" serviceUrl net fromstring lawId =
      { success := false, error := some "API not configured" }) ∧
    (search_laws "" searchUrl net fromstring keyword searchType page count =
      search_laws "" searchUrl net2 fromstring2 keyword searchType page count) ∧
    (get_law_detail "" serviceUrl net fromstring lawId =
      get_law_detail "" serviceUrl net2 fromstring2 lawId) ∧
    (resolveLawReferences base "" oracle intent = curatedRefs base intent) := by
  refine ⟨rfl, rfl, rfl, rfl, ?_⟩
  cases h : lookupA INTENT_TO_LAW_KEYWORDS intent <;>
    simp [resolveLawReferences, h]

/-- C4 counterexample: a well-formed response whose `totalCnt` text is
the non-numeric `"abc"` makes `_parse_search_response` raise a
`ValueError` (modelled by `Except.error`) instead of returning a result
with `total_count = 0`: the `except` clause only catches
`ET.ParseError`. -/
theorem C4_counterexample :
    parse_search_response
        (fun _ => Except.ok (Xml.elem "laws" none [Xml.elem "totalCnt" (some "abc") []]))
        "<laws><totalCnt>abc</totalCnt></laws>" =
      Except.error "invalid literal for int() with base 10: abc" := by
  rfl

/-- C4 (amended): the search parser never raises on malformed XML — it
returns `{success: false, error: "XML parsing error: <detail>"}` — and
yields `total_count = 0` when `totalCnt` is absent or its text is empty
or missing; but a non-empty, non-numeric `totalCnt` text raises a
`ValueError` that escapes `_parse_search_response` (the catch-all of
`search_laws` then converts it into a failure dict).  Law-record fields
are resolved through `or`-chained tag lookups that yield `""` when no
tag is present (e.g. `law_name` falls back from `법령명한글` to
`법령명`). -/
theorem C4_parser_behaviour (fromstring : String → Except String Xml) (s : String) :
    (∀ e, fromstring s = .error e →
      parse_search_response fromstring s =
        .ok { success := false, error := some ("XML parsing error: " ++ e) }) ∧
    (∀ root, fromstring s = .ok root →
      ((xmlFind root "totalCnt").bind Xml.text = none ∨
       (xmlFind root "totalCnt").bind Xml.text = some "") →
      parse_search_response fromstring s =
        .ok { success := true, total_count := 0,
              laws := (xmlFindall root "law").map parseLawItem, error := none }) ∧
    (∀ root t, fromstring s = .ok root →
      (xmlFind root "totalCnt").bind Xml.text = some t → t ≠ "" →
      pyIntOfString? t = none →
      parse_search_response fromstring s =
        .error ("invalid literal for int() with base 10: " ++ t)) ∧
    (∀ root t n, fromstring s = .ok root →
      (xmlFind root "totalCnt").bind Xml.text = some t → t ≠ "" →
      pyIntOfString? t = some n →
      parse_search_response fromstring s =
        .ok { success := true, total_count := n,
              laws := (xmlFindall root "law").map parseLawItem, error := none }) ∧
    (∀ item : Xml, item.descendants = [] →
      parseLawItem item = ⟨"", "", "", "", "", ""⟩) ∧
    (∀ item : Xml, xmlFind item "법령명한글" = none →
      (parseLawItem item).law_name = get_xml_text item "법령명") := by
  refine ⟨?_, ?_, ?_, ?_, ?_, ?_⟩
  · intro e he
    simp [parse_search_response, he]
  · intro root hr htot
    rcases htot with htot | htot <;>
      simp [parse_search_response, hr, htot]
  · intro root t hr htot hne hint
    simp [parse_search_response, hr, htot, hne, hint]
  · intro root t n hr htot hne hint
    simp [parse_search_response, hr, htot, hne, hint]
  · intro item hd
    simp [parseLawItem, get_xml_text, xmlFind, hd, pyOrS]
  · intro item hfind
    simp [parseLawItem, pyOrS]
    rw [show get_xml_text item "법령명한글" = "" by simp [get_xml_text, hfind]]
    simp [pyOrS]

/-- Witness for C4 at concrete inputs: a malformed document yields the
tagged `XML parsing error` failure, and a document without `totalCnt`
yields `total_count = 0` with the law fields resolved through the
fallback tags. -/
theorem C4_witness :
    parse_search_response (fun _ => Except.error "syntax error: line 1, column 0") "<laws" =
      Except.ok { success := false, total_count := 0, laws := [],
                  error := some "XML parsing error: syntax error: line 1, column 0" } ∧
    parse_search_response
        (fun _ => Except.ok (Xml.elem "laws" none
          [Xml.elem "law" none [Xml.elem "법령명" (some "상법") []]]))
        "<laws><law><법령명>상법</법령명></law></laws>" =
      Except.ok { success := true, total_count := 0,
                  laws := [{ law_id := "", law_name := "상법", promulgation_date := "",
                             enforcement_date := "", ministry := "", law_type := "" }],
                  error := none } := by
  constructor
  · exact (C4_parser_behaviour (fun _ => Except.error "syntax error: line 1, column 0")
      "<laws").1 "syntax error: line 1, column 0" rfl
  · have h := (C4_parser_behaviour
      (fun _ => Except.ok (Xml.elem "laws" none
        [Xml.elem "law" none [Xml.elem "법령명" (some "상법") []]]))
      "<laws><law><법령명>상법</법령명></law></laws>").2.1
      (Xml.elem "laws" none [Xml.elem "law" none [Xml.elem "법령명" (some "상법") []]])
      rfl (Or.inl rfl)
    rw [h]
    rfl

/-! ### Lemmas on the law-reference resolver -/

/-- A search outcome the enrichment loop skips: a returned dict that is
unsuccessful or has no laws. -/
def softFail (o : Except String SearchResult) : Prop :=
  ∃ r, o = Except.ok r ∧ (r.success = false ∨ r.laws = [])

lemma mergeLaws_decomp (base : String) (refs : List LawReference)
    (laws : List LawRecord) :
    ∃ extra, mergeLaws base refs laws = refs ++ extra ∧
      extra.length ≤ laws.length ∧
      ∀ r ∈ extra, r.name ≠ "" ∧ ∀ r0 ∈ refs, r.name ≠ r0.name := by
  induction laws generalizing refs with
  | nil => exact ⟨[], by simp [mergeLaws], by simp, by simp⟩
  | cons law rest ih =>
    by_cases hc : law.law_name ≠ "" ∧ ¬ (refs.any fun r => r.name == law.law_name)
    · obtain ⟨extra, heq, hlen, hfresh⟩ :=
        ih (refs ++ [{ name := law.law_name, name_en := law.law_name,
                       url := build_english_law_url base law.law_name,
                       id := law.law_id }])
      refine ⟨{ name := law.law_name, name_en := law.law_name,
                url := build_english_law_url base law.law_name,
                id := law.law_id } :: extra, ?_, by simpa using Nat.succ_le_succ hlen, ?_⟩
      · rw [show mergeLaws base refs (law :: rest) =
            mergeLaws base (refs ++ [{ name := law.law_name, name_en := law.law_name,
                                       url := build_english_law_url base law.law_name,
                                       id := law.law_id }]) rest by
              simp [mergeLaws, hc], heq]
        simp
      · intro r hr
        rcases List.mem_cons.mp hr with rfl | hr
        · refine ⟨hc.1, fun r0 hr0 => ?_⟩
          intro hcontra
          exact hc.2 (List.any_eq_true.mpr ⟨r0, hr0, by simp [hcontra.symm]⟩)
        · exact ⟨(hfresh r hr).1,
            fun r0 hr0 => (hfresh r hr).2 r0 (List.mem_append_left _ hr0)⟩
    · obtain ⟨extra, heq, hlen, hfresh⟩ := ih refs
      refine ⟨extra, ?_, le_trans hlen (Nat.le_succ _), hfresh⟩
      rw [show mergeLaws base refs (law :: rest) = mergeLaws base refs rest by
        simp only [mergeLaws, if_neg hc], heq]

lemma mergeLaws_names_nodup (base : String) (refs : List LawReference)
    (laws : List LawRecord)
    (h : (refs.map LawReference.name).Nodup) :
    ((mergeLaws base refs laws).map LawReference.name).Nodup := by
  induction laws generalizing refs with
  | nil => simpa [mergeLaws]
  | cons law rest ih =>
    by_cases hc : law.law_name ≠ "" ∧ ¬ (refs.any fun r => r.name == law.law_name)
    · rw [show mergeLaws base refs (law :: rest) =
          mergeLaws base (refs ++ [{ name := law.law_name, name_en := law.law_name,
                                     url := build_english_law_url base law.law_name,
                                     id := law.law_id }]) rest by
            simp [mergeLaws, hc]]
      refine ih _ ?_
      rw [List.map_append, List.nodup_append]
      refine ⟨h, by simp, ?_⟩
      intro x hx hx2
      simp only [List.map_cons, List.map_nil, List.mem_cons, List.not_mem_nil,
        or_false] at hx2
      subst hx2
      obtain ⟨r0, hr0, hname⟩ := List.mem_map.mp hx
      exact hc.2 (List.any_eq_true.mpr ⟨r0, hr0, by simp [hname]⟩)
    · rw [show mergeLaws base refs (law :: rest) = mergeLaws base refs rest by
        simp only [mergeLaws, if_neg hc]]
      exact ih _ h

lemma enrichLoop_all_unusable (base : String)
    (oracle : String → Except String SearchResult) (refs : List LawReference)
    (kws : List String)
    (h : ∀ k ∈ kws, softFail (oracle k) ∨ ∃ e, oracle k = Except.error e) :
    enrichLoop base oracle refs kws = refs := by
  induction kws with
  | nil => rfl
  | cons kw rest ih =>
    rcases h kw (List.mem_cons_self _ _) with ⟨r, hok, hbad⟩ | ⟨e, herr⟩
    · have hcond : ¬ (r.success = true ∧ r.laws ≠ []) := by
        rcases hbad with hb | hb <;> simp [hb]
      simp only [enrichLoop, hok, if_neg hcond]
      exact ih fun k hk => h k (List.mem_cons_of_mem _ hk)
    · simp [enrichLoop, herr]

lemma enrichLoop_first_success (base : String)
    (oracle : String → Except String SearchResult) (refs : List LawReference)
    (pre : List String) (kw : String) (rest : List String) (res : SearchResult)
    (hpre : ∀ k ∈ pre, softFail (oracle k))
    (hok : oracle kw = Except.ok res) (hs : res.success = true)
    (hlaws : res.laws ≠ []) :
    enrichLoop base oracle refs (pre ++ kw :: rest) =
      mergeLaws base refs (res.laws.take 2) := by
  induction pre with
  | nil =>
    simp only [List.nil_append, enrichLoop, hok, if_pos (And.intro hs hlaws)]
  | cons p t ih =>
    obtain ⟨r, hokp, hbad⟩ := hpre p (List.mem_cons_self _ _)
    have hcond : ¬ (r.success = true ∧ r.laws ≠ []) := by
      rcases hbad with hb | hb <;> simp [hb]
    simp only [List.cons_append, enrichLoop, hokp, if_neg hcond]
    exact ih fun k hk => hpre k (List.mem_cons_of_mem _ hk)

lemma enrichLoop_decomp (base : String)
    (oracle : String → Except String SearchResult) (refs : List LawReference)
    (kws : List String) :
    ∃ extra, enrichLoop base oracle refs kws = refs ++ extra ∧
      extra.length ≤ 2 ∧
      ∀ r ∈ extra, r.name ≠ "" ∧ ∀ r0 ∈ refs, r.name ≠ r0.name := by
  induction kws with
  | nil => exact ⟨[], by simp [enrichLoop], by simp, by simp⟩
  | cons kw rest ih =>
    cases hok : oracle kw with
    | error e => exact ⟨[], by simp [enrichLoop, hok], by simp, by simp⟩
    | ok r =>
      by_cases hc : r.success = true ∧ r.laws ≠ []
      · obtain ⟨extra, heq, hlen, hfresh⟩ := mergeLaws_decomp base refs (r.laws.take 2)
        refine ⟨extra, ?_, le_trans hlen (by simpa using List.length_take_le 2 r.laws), hfresh⟩
        simp only [enrichLoop, hok, if_pos hc]
        exact heq
      · obtain ⟨extra, heq, hlen, hfresh⟩ := ih
        refine ⟨extra, ?_, hlen, hfresh⟩
        simp only [enrichLoop, hok, if_neg hc]
        exact heq

lemma enrichLoop_names_nodup (base : String)
    (oracle : String → Except String SearchResult) (refs : List LawReference)
    (kws : List String) (h : (refs.map LawReference.name).Nodup) :
    ((enrichLoop base oracle refs kws).map LawReference.name).Nodup := by
  induction kws with
  | nil => simpa [enrichLoop]
  | cons kw rest ih =>
    cases hok : oracle kw with
    | error e => simpa [enrichLoop, hok]
    | ok r =>
      by_cases hc : r.success = true ∧ r.laws ≠ []
      · simp only [enrichLoop, hok, if_pos hc]
        exact mergeLaws_names_nodup base refs _ h
      · simp only [enrichLoop, hok, if_neg hc]
        exact ih

lemma lookupA_mem {α : Type} {l : List (String × α)} {k : String} {v : α}
    (h : lookupA l k = some v) : (k, v) ∈ l := by
  unfold lookupA at h
  cases hf : l.find? (fun p => p.1 == k) with
  | none => rw [hf] at h; cases h
  | some p =>
    rw [hf] at h
    have hp2 : p.2 = v := by simpa using h
    have hp1 : p.1 = k := by simpa using List.find?_some hf
    have := List.mem_of_find?_eq_some hf
    rw [← hp1, ← hp2]
    exact this

lemma curated_names_nodup (base intent : String) :
    ((curatedRefs base intent).map LawReference.name).Nodup := by
  unfold curatedRefs
  cases h : lookupA ENGLISH_LAW_ENTRIES intent with
  | none => simp
  | some entries =>
    have hmem := lookupA_mem h
    have hnames : ((entries.take 5).map (fun e => e.name_kr)).Nodup := by
      simp only [ENGLISH_LAW_ENTRIES, List.mem_cons, List.not_mem_nil, or_false,
        Prod.mk.injEq] at hmem
      rcases hmem with ⟨_, rfl⟩ | ⟨_, rfl⟩ | ⟨_, rfl⟩ | ⟨_, rfl⟩ | ⟨_, rfl⟩ |
        ⟨_, rfl⟩ | ⟨_, rfl⟩ | ⟨_, rfl⟩ | ⟨_, rfl⟩ <;> decide
    simpa [List.map_map, Function.comp] using hnames

lemma resolve_names_nodup (base oc : String)
    (oracle : String → Except String SearchResult) (intent : String) :
    ((resolveLawReferences base oc oracle intent).map LawReference.name).Nodup := by
  unfold resolveLawReferences
  cases h : lookupA INTENT_TO_LAW_KEYWORDS intent with
  | none => exact curated_names_nodup base intent
  | some kws =>
    by_cases hoc : oc = ""
    · simp only [if_pos hoc]
      exact curated_names_nodup base intent
    · simp only [if_neg hoc]
      exact enrichLoop_names_nodup base oracle _ kws (curated_names_nodup base intent)

/-- C3: the law-reference resolution inside `get_response` never raises
(it is a total function of the search oracle, with a raised exception
modelled by an `Except.error` oracle answer that aborts the swallowed
enrichment): with an empty credential, or no keyword entry, or only
failing/empty/raising search outcomes, the result is exactly the
curated-only list (up to the first 5 entries, `name = name_kr`,
`name_en = name_en or name_kr`, `id = name_kr`); for the first keyword
whose result is successful and non-empty it merges at most 2 laws with
fresh non-empty names and consults no further keyword; in every case
the result is the curated list plus at most 2 fresh-named extras. -/
theorem C3_resolver_behaviour (base oc : String)
    (oracle : String → Except String SearchResult) (intent : String) :
    (resolveLawReferences base "" oracle intent = curatedRefs base intent) ∧
    (lookupA INTENT_TO_LAW_KEYWORDS intent = none →
      resolveLawReferences base oc oracle intent = curatedRefs base intent) ∧
    (∀ kws, lookupA INTENT_TO_LAW_KEYWORDS intent = some kws →
      (∀ k ∈ kws, softFail (oracle k) ∨ ∃ e, oracle k = Except.error e) →
      resolveLawReferences base oc oracle intent = curatedRefs base intent) ∧
    (∀ kws pre kw rest res, lookupA INTENT_TO_LAW_KEYWORDS intent = some kws →
      kws = pre ++ kw :: rest → (∀ k ∈ pre, softFail (oracle k)) →
      oracle kw = Except.ok res → res.success = true → res.laws ≠ [] → oc ≠ "" →
      resolveLawReferences base oc oracle intent =
        mergeLaws base (curatedRefs base intent) (res.laws.take 2)) ∧
    (∃ extra, resolveLawReferences base oc oracle intent =
        curatedRefs base intent ++ extra ∧ extra.length ≤ 2 ∧
      ∀ r ∈ extra, r.name ≠ "" ∧ ∀ r0 ∈ curatedRefs base intent, r.name ≠ r0.name) ∧
    (curatedRefs base intent =
      match lookupA ENGLISH_LAW_ENTRIES intent with
      | none => []
      | some entries => (entries.take 5).map fun e =>
          { name := e.name_kr, name_en := pyOrS e.name_en e.name_kr,
            url := build_english_law_url base e.name_kr, id := e.name_kr }) := by
  refine ⟨?_, ?_, ?_, ?_, ?_, rfl⟩
  · cases h : lookupA INTENT_TO_LAW_KEYWORDS intent <;>
      simp [resolveLawReferences, h]
  · intro h
    simp [resolveLawReferences, h]
  · intro kws h hfail
    unfold resolveLawReferences
    rw [h]
    by_cases hoc : oc = ""
    · simp only [if_pos hoc]
    · simp only [if_neg hoc]
      exact enrichLoop_all_unusable base oracle _ kws hfail
  · intro kws pre kw rest res h hsplit hpre hok hs hlaws hoc
    unfold resolveLawReferences
    rw [h]
    show (if oc = "" then curatedRefs base intent
      else enrichLoop base oracle (curatedRefs base intent) kws) =
      mergeLaws base (curatedRefs base intent) (res.laws.take 2)
    rw [if_neg hoc, hsplit]
    exact enrichLoop_first_success base oracle _ pre kw rest res hpre hok hs hlaws
  · unfold resolveLawReferences
    cases h : lookupA INTENT_TO_LAW_KEYWORDS intent with
    | none => exact ⟨[], by simp, by simp, by simp⟩
    | some kws =>
      by_cases hoc : oc = ""
      · simp only [if_pos hoc]
        exact ⟨[], by simp, by simp, by simp⟩
      · simp only [if_neg hoc]
        exact enrichLoop_decomp base oracle _ kws

/-- Successful two-law search payload used by the C3 witness. -/
def c3OkResult : SearchResult :=
  { success := true
    total_count := 2
    laws := [{ law_id := "100", law_name := "테스트법일", promulgation_date := "",
               enforcement_date := "", ministry := "", law_type := "" },
             { law_id := "101", law_name := "테스트법이", promulgation_date := "",
               enforcement_date := "", ministry := "", law_type := "" }] }

/-- Oracle used by the C3 witness: succeeds on the first `visa` search
keyword and reports an unsuccessful search otherwise. -/
def c3Oracle : String → Except String SearchResult :=
  fun k => if k = "출입국관리법" then Except.ok c3OkResult
    else Except.ok { success := false, error := some "empty" }

/-- All-failures oracle used by the C3 witness. -/
def c3FailOracle : String → Except String SearchResult :=
  fun _ => Except.ok { success := false, error := some "boom" }

/-- Witness for C3 at concrete inputs: empty credential, unknown
intent, all-failing searches (curated-only in each case), and a first
keyword success that merges the searched laws. -/
theorem C3_witness :
    (resolveLawReferences LAW_GO_KR_BASE_DEFAULT "" c3Oracle "visa" =
      curatedRefs LAW_GO_KR_BASE_DEFAULT "visa") ∧
    (resolveLawReferences LAW_GO_KR_BASE_DEFAULT "testoc" c3Oracle "greeting" =
      curatedRefs LAW_GO_KR_BASE_DEFAULT "greeting") ∧
    (resolveLawReferences LAW_GO_KR_BASE_DEFAULT "testoc" c3FailOracle "visa" =
      curatedRefs LAW_GO_KR_BASE_DEFAULT "visa") ∧
    (resolveLawReferences LAW_GO_KR_BASE_DEFAULT "testoc" c3Oracle "visa" =
      mergeLaws LAW_GO_KR_BASE_DEFAULT (curatedRefs LAW_GO_KR_BASE_DEFAULT "visa")
        (c3OkResult.laws.take 2)) :=
  ⟨(C3_resolver_behaviour LAW_GO_KR_BASE_DEFAULT "" c3Oracle "visa").1,
   (C3_resolver_behaviour LAW_GO_KR_BASE_DEFAULT "testoc" c3Oracle "greeting").2.1 rfl,
   (C3_resolver_behaviour LAW_GO_KR_BASE_DEFAULT "testoc" c3FailOracle "visa").2.2.1
     ["출입국관리법", "체류"] rfl
     (fun k _ => Or.inl ⟨{ success := false, error := some "boom" }, rfl, Or.inl rfl⟩),
   (C3_resolver_behaviour LAW_GO_KR_BASE_DEFAULT "testoc" c3Oracle "visa").2.2.2.1
     ["출입국관리법", "체류"] [] "출입국관리법" ["체류"] c3OkResult rfl rfl
     (by simp) rfl rfl (by simp [c3OkResult]) (by simp)⟩

/-- C8: in every mapping returned by `get_response`, the
`law_references` entries are pairwise distinct by `name`: every curated
per-intent list is distinct by `name_kr`, and enrichment only appends a
law whose `law_name` equals the name of no existing reference. -/
theorem C8_law_reference_names_unique (base oc : String)
    (oracle : String → Except String SearchResult) (intent country message : String) :
    (((get_response base oc oracle intent country message).law_references).map
      LawReference.name).Nodup ∧
    (∀ i : String, ((curatedRefs base i).map LawReference.name).Nodup) := by
  constructor
  · rw [get_response_law_references_eq]
    exact resolve_names_nodup base oc oracle _
  · exact fun i => curated_names_nodup base i

/-! ### Knowledge selection (C2) -/

/-- The confidence the C2 claim describes, written from its words:
the confidence of the knowledge entry selected by preferring the
`(country, intent)` entry, else the `("general", intent)` entry, and
`0.3` when neither exists. -/
def specSelectedConfidence (country intent : String) : ℚ :=
  match lookupA LEGAL_KNOWLEDGE country with
  | some cmap =>
    match lookupA cmap intent with
    | some d => d.confidence.getD (7/10)
    | none =>
      match lookupA KNOWLEDGE_GENERAL intent with
      | some d => d.confidence.getD (7/10)
      | none => 3/10
  | none =>
    match lookupA KNOWLEDGE_GENERAL intent with
    | some d => d.confidence.getD (7/10)
    | none => 3/10

lemma legal_knowledge_values (country : String) (m : List (String × KnowledgeEntry))
    (h : lookupA LEGAL_KNOWLEDGE country = some m) :
    lookupA m "" = none ∧ lookupA m "general" = none := by
  have hmem := lookupA_mem h
  simp only [LEGAL_KNOWLEDGE, List.mem_cons, List.not_mem_nil, or_false,
    Prod.mk.injEq] at hmem
  rcases hmem with ⟨_, rfl⟩ | ⟨_, rfl⟩ | ⟨_, rfl⟩ | ⟨_, rfl⟩ <;> exact ⟨rfl, rfl⟩

lemma knowledgeSelect_snd_eq_spec (country intent : String) :
    (knowledgeSelect (if country = "" then "general" else country)
      (if intent = "" then "general" else intent)).2 =
      specSelectedConfidence country intent := by
  have hg : lookupA LEGAL_KNOWLEDGE "general" = some KNOWLEDGE_GENERAL := rfl
  have hnone : lookupA LEGAL_KNOWLEDGE "" = none := rfl
  by_cases hi : intent = "" <;> by_cases hc : country = ""
  · subst hi; subst hc
    rfl
  · subst hi
    rw [if_neg hc]
    show (knowledgeSelect country "general").2 = specSelectedConfidence country ""
    unfold knowledgeSelect specSelectedConfidence
    cases h1 : lookupA LEGAL_KNOWLEDGE country with
    | none => rfl
    | some m =>
      have hv := legal_knowledge_values country m h1
      simp only [hv.1, hv.2]
      rfl
  · subst hc
    rw [if_neg hi]
    show (knowledgeSelect "general" intent).2 = specSelectedConfidence "" intent
    unfold knowledgeSelect specSelectedConfidence
    rw [hg, hnone]
    cases h2 : lookupA KNOWLEDGE_GENERAL intent <;> simp [h2]
  · rw [if_neg hi, if_neg hc]
    unfold knowledgeSelect specSelectedConfidence
    cases h1 : lookupA LEGAL_KNOWLEDGE country with
    | none => cases h2 : lookupA KNOWLEDGE_GENERAL intent <;> simp [h2]
    | some m =>
      cases h2 : lookupA m intent with
      | none => cases h3 : lookupA KNOWLEDGE_GENERAL intent <;> simp [h2, h3]
      | some d => simp [h2]

lemma get_response_reply_eq (base oc : String)
    (oracle : String → Except String SearchResult) (intent country message : String) :
    (get_response base oc oracle intent country message).reply =
      (let sel := knowledgeSelect (if country = "" then "general" else country)
        (if intent = "" then "general" else intent)
       let refs := resolveLawReferences base oc oracle
        (if intent = "" then "general" else intent)
       let t := if refs ≠ [] then sel.1 ++ ENGLISH_LAWS_NOTE else sel.1
       if sel.2 < 1/2 then t ++ LOW_CONFIDENCE_NOTE else t) := rfl

lemma general_domain (i : String) (h : lookupA KNOWLEDGE_GENERAL i = none) :
    lookupA ENGLISH_LAW_ENTRIES i = none ∧ lookupA INTENT_TO_LAW_KEYWORDS i = none := by
  constructor
  · cases he : lookupA ENGLISH_LAW_ENTRIES i with
    | none => rfl
    | some v =>
      exfalso
      have hmem := lookupA_mem he
      simp only [ENGLISH_LAW_ENTRIES, List.mem_cons, List.not_mem_nil, or_false,
        Prod.mk.injEq] at hmem
      rcases hmem with ⟨rfl, _⟩ | ⟨rfl, _⟩ | ⟨rfl, _⟩ | ⟨rfl, _⟩ | ⟨rfl, _⟩ |
        ⟨rfl, _⟩ | ⟨rfl, _⟩ | ⟨rfl, _⟩ | ⟨rfl, _⟩ <;> exact absurd h (by decide)
  · cases he : lookupA INTENT_TO_LAW_KEYWORDS i with
    | none => rfl
    | some v =>
      exfalso
      have hmem := lookupA_mem he
      simp only [INTENT_TO_LAW_KEYWORDS, List.mem_cons, List.not_mem_nil, or_false,
        Prod.mk.injEq] at hmem
      rcases hmem with ⟨rfl, _⟩ | ⟨rfl, _⟩ | ⟨rfl, _⟩ | ⟨rfl, _⟩ | ⟨rfl, _⟩ |
        ⟨rfl, _⟩ | ⟨rfl, _⟩ | ⟨rfl, _⟩ | ⟨rfl, _⟩ <;> exact absurd h (by decide)

lemma knowledgeSelect_fallback (country intent : String)
    (h1 : (lookupA LEGAL_KNOWLEDGE country).bind (fun m => lookupA m intent) = none)
    (h2 : lookupA KNOWLEDGE_GENERAL intent = none) :
    knowledgeSelect (if country = "" then "general" else country)
      (if intent = "" then "general" else intent) = (FALLBACK_TEXT, 3/10) := by
  have hKGI : lookupA KNOWLEDGE_GENERAL (if intent = "" then "general" else intent) =
      none := by
    by_cases hi : intent = ""
    · rw [if_pos hi]; rfl
    · rw [if_neg hi]; exact h2
  unfold knowledgeSelect
  by_cases hc : country = ""
  · rw [if_pos hc]
    have hg : lookupA LEGAL_KNOWLEDGE "general" = some KNOWLEDGE_GENERAL := rfl
    simp only [hg, hKGI]
  · rw [if_neg hc]
    cases h3 : lookupA LEGAL_KNOWLEDGE country with
    | none => simp only [h3, hKGI]
    | some m =>
      have hm : lookupA m (if intent = "" then "general" else intent) = none := by
        by_cases hi : intent = ""
        · rw [if_pos hi]; exact (legal_knowledge_values country m h3).2
        · rw [if_neg hi]
          have hb := h1
          rw [h3] at hb
          simpa using hb
      simp only [h3, hm, hKGI]

lemma resolve_empty_of_no_general (base oc : String)
    (oracle : String → Except String SearchResult) (intent : String)
    (h2 : lookupA KNOWLEDGE_GENERAL intent = none) :
    resolveLawReferences base oc oracle (if intent = "" then "general" else intent) = [] := by
  by_cases hi : intent = ""
  · rw [if_pos hi]; rfl
  · rw [if_neg hi]
    have hd := general_domain intent h2
    unfold resolveLawReferences curatedRefs
    simp only [hd.1, hd.2]

/-- C2 counterexample: for `intent = country = "general"` neither
knowledge entry exists, yet the returned reply is not the bare
human-contact fallback text — `get_response` appends the fixed
low-confidence note, since the fallback confidence 0.3 is below 0.5. -/
theorem C2_counterexample :
    ((lookupA LEGAL_KNOWLEDGE "general").bind (fun m => lookupA m "general") = none) ∧
    lookupA KNOWLEDGE_GENERAL "general" = none ∧
    (get_response LAW_GO_KR_BASE_DEFAULT "" (fun _ => Except.error "down")
      "general" "general" "hi").reply ≠ FALLBACK_TEXT := by
  refine ⟨rfl, rfl, ?_⟩
  have hsel := knowledgeSelect_fallback "general" "general" rfl rfl
  have hrefs := resolve_empty_of_no_general LAW_GO_KR_BASE_DEFAULT ""
    (fun _ => Except.error "down") "general" rfl
  have hreply : (get_response LAW_GO_KR_BASE_DEFAULT "" (fun _ => Except.error "down")
      "general" "general" "hi").reply = FALLBACK_TEXT ++ LOW_CONFIDENCE_NOTE := by
    rw [get_response_reply_eq]
    simp only [hsel, hrefs]
    norm_num
  rw [hreply]
  decide

/-- C2 (amended): the confidence field of the mapping returned by
`get_response` always equals the confidence of the knowledge entry
selected by preferring the `(country, intent)` entry, else the
`("general", intent)` entry, with 0.3 when neither exists; and when
neither entry exists the reply equals the human-contact fallback text
with the fixed low-confidence note appended (0.3 < 0.5). -/
theorem C2_confidence_selection (base oc : String)
    (oracle : String → Except String SearchResult) (intent country message : String) :
    ((get_response base oc oracle intent country message).confidence =
      specSelectedConfidence country intent) ∧
    ((lookupA LEGAL_KNOWLEDGE country).bind (fun m => lookupA m intent) = none →
      lookupA KNOWLEDGE_GENERAL intent = none →
      (get_response base oc oracle intent country message).reply =
        FALLBACK_TEXT ++ LOW_CONFIDENCE_NOTE ∧
      (get_response base oc oracle intent country message).confidence = 3/10) := by
  constructor
  · rw [get_response_confidence_eq]
    exact knowledgeSelect_snd_eq_spec country intent
  · intro h1 h2
    have hsel := knowledgeSelect_fallback country intent h1 h2
    have hrefs := resolve_empty_of_no_general base oc oracle intent h2
    constructor
    · rw [get_response_reply_eq]
      simp only [hsel, hrefs]
      norm_num
    · rw [get_response_confidence_eq, hsel]

/-- Witness for C2 at a concrete input: the unknown intent `"zzz"` has
no knowledge entry in any tier, so the reply is the fallback text plus
the low-confidence note and the confidence is 0.3. -/
theorem C2_witness :
    (get_response LAW_GO_KR_BASE_DEFAULT "" (fun _ => Except.error "down")
        "zzz" "general" "hello").reply = FALLBACK_TEXT ++ LOW_CONFIDENCE_NOTE ∧
    (get_response LAW_GO_KR_BASE_DEFAULT "" (fun _ => Except.error "down")
        "zzz" "general" "hello").confidence = 3/10 :=
  (C2_confidence_selection LAW_GO_KR_BASE_DEFAULT "" (fun _ => Except.error "down")
    "zzz" "general" "hello").2 rfl rfl
